import Mathlib

/-!
# VCM attribute words (`include/linux/vcm_types.h`)

A shallow embedding of the attribute macros of the Virtually Contiguous
Memory header.  Every preprocessor definition becomes a definition of the
same name over `Nat`; machine words of width `w` are natural numbers below
`2 ^ w`, and the operations that can lose bits in C (`<<`, `~`) are reduced
modulo `2 ^ w`.
-/

/-! ## Reservation attributes (lines 85-121) -/

/-- Header definition `VCM_ALIGN_SHIFT` (line 85). -/
def VCM_ALIGN_SHIFT : Nat := 10

/-- Header definition `VCM_ALIGN_MASK` (line 86). -/
def VCM_ALIGN_MASK : Nat := 0x1F

/-- Header definition `VCM_ALIGN_ATTR(order)` (line 87):
`(((order) & VCM_ALIGN_MASK) << VCM_ALIGN_SHIFT)`.  The masked order is below
`2 ^ 5`, so the shift by 10 cannot overflow a 32-bit word. -/
def VCM_ALIGN_ATTR (order : Nat) : Nat :=
  (order &&& VCM_ALIGN_MASK) <<< VCM_ALIGN_SHIFT

/-- Header definition `VCM_ALIGN_DEFAULT` (line 89). -/
def VCM_ALIGN_DEFAULT : Nat := 0

/-- Header definitions `VCM_ALIGN_4K` .. `VCM_ALIGN_1GB` (lines 90-108). -/
def VCM_ALIGN_4K : Nat := VCM_ALIGN_ATTR 12
def VCM_ALIGN_8K : Nat := VCM_ALIGN_ATTR 13
def VCM_ALIGN_16K : Nat := VCM_ALIGN_ATTR 14
def VCM_ALIGN_32K : Nat := VCM_ALIGN_ATTR 15
def VCM_ALIGN_64K : Nat := VCM_ALIGN_ATTR 16
def VCM_ALIGN_128K : Nat := VCM_ALIGN_ATTR 17
def VCM_ALIGN_256K : Nat := VCM_ALIGN_ATTR 18
def VCM_ALIGN_512K : Nat := VCM_ALIGN_ATTR 19
def VCM_ALIGN_1M : Nat := VCM_ALIGN_ATTR 20
def VCM_ALIGN_2M : Nat := VCM_ALIGN_ATTR 21
def VCM_ALIGN_4M : Nat := VCM_ALIGN_ATTR 22
def VCM_ALIGN_8M : Nat := VCM_ALIGN_ATTR 23
def VCM_ALIGN_16M : Nat := VCM_ALIGN_ATTR 24
def VCM_ALIGN_32M : Nat := VCM_ALIGN_ATTR 25
def VCM_ALIGN_64M : Nat := VCM_ALIGN_ATTR 26
def VCM_ALIGN_128M : Nat := VCM_ALIGN_ATTR 27
def VCM_ALIGN_256M : Nat := VCM_ALIGN_ATTR 28
def VCM_ALIGN_512M : Nat := VCM_ALIGN_ATTR 29
def VCM_ALIGN_1GB : Nat := VCM_ALIGN_ATTR 30

/-- Header definition `VCM_CACHE_POLICY` (line 111): `(0xF << 0)`. -/
def VCM_CACHE_POLICY : Nat := 0xF <<< 0
/-- Header definition `VCM_READ` (line 112): `(1UL << 9)`. -/
def VCM_READ : Nat := 1 <<< 9
/-- Header definition `VCM_WRITE` (line 113): `(1UL << 8)`. -/
def VCM_WRITE : Nat := 1 <<< 8
/-- Header definition `VCM_EXECUTE` (line 114): `(1UL << 7)`. -/
def VCM_EXECUTE : Nat := 1 <<< 7
/-- Header definition `VCM_USER` (line 115): `(1UL << 6)`. -/
def VCM_USER : Nat := 1 <<< 6
/-- Header definition `VCM_SUPERVISOR` (line 116): `(1UL << 5)`. -/
def VCM_SUPERVISOR : Nat := 1 <<< 5
/-- Header definition `VCM_SECURE` (line 117): `(1UL << 4)`. -/
def VCM_SECURE : Nat := 1 <<< 4
/-- Header definition `VCM_NOTCACHED` (line 118): `(0UL << 0)`. -/
def VCM_NOTCACHED : Nat := 0 <<< 0
/-- Header definition `VCM_WB_WA` (line 119): `(1UL << 0)`. -/
def VCM_WB_WA : Nat := 1 <<< 0
/-- Header definition `VCM_WB_NWA` (line 120): `(2UL << 0)`. -/
def VCM_WB_NWA : Nat := 2 <<< 0
/-- Header definition `VCM_WT` (line 121): `(3UL << 0)`. -/
def VCM_WT : Nat := 3 <<< 0

/-! ## Physical allocation attributes (lines 146-160) -/

/-- Header definition `VCM_4KB` (line 146): `(1UL << 5)`. -/
def VCM_4KB : Nat := 1 <<< 5
/-- Header definition `VCM_64KB` (line 147): `(1UL << 4)`. -/
def VCM_64KB : Nat := 1 <<< 4
/-- Header definition `VCM_1MB` (line 148): `(1UL << 3)`. -/
def VCM_1MB : Nat := 1 <<< 3
/-- Header definition `VCM_ALL` (line 149): `(1UL << 2)`. -/
def VCM_ALL : Nat := 1 <<< 2
/-- Header definition `VCM_PAGE_SEL_MASK` (line 150): `(0xFUL << 2)`. -/
def VCM_PAGE_SEL_MASK : Nat := 0xF <<< 2
/-- Header definition `VCM_PHYS_CONT` (line 151): `(1UL << 1)`. -/
def VCM_PHYS_CONT : Nat := 1 <<< 1
/-- Header definition `VCM_COHERENT` (line 152): `(1UL << 0)`. -/
def VCM_COHERENT : Nat := 1 <<< 0

/-- Header definition `SHIFT_4KB` (line 155). -/
def SHIFT_4KB : Nat := 12

/-- Bitwise complement `~x` of a word of width `w`. -/
def wordNot (w x : Nat) : Nat := (2 ^ w - 1) ^^^ (x % 2 ^ w)

/-- Header definition `ALIGN_REQ_BYTES(attr)` (line 157):
`(1UL << (((attr & VCM_ALIGNMENT_MASK) >> 6) + 12))`.
The header uses `VCM_ALIGNMENT_MASK` without defining it, so the mask is a
parameter, as is the width `w` of `unsigned long`.  The left shift is reduced
modulo `2 ^ w`; C leaves a shift count of `w` or more undefined, and the
results below only speak about counts smaller than `w`. -/
def ALIGN_REQ_BYTES (w VCM_ALIGNMENT_MASK attr : Nat) : Nat :=
  (1 <<< (((attr &&& VCM_ALIGNMENT_MASK) >>> 6) + 12)) % 2 ^ w

/-- Header definition `SET_ALIGN_REQ_BYTES(attr, align)` (lines 159-160):
`((attr & ~VCM_ALIGNMENT_MASK) | ((align << 6) & VCM_ALIGNMENT_MASK))`,
over words of width `w`, with the undefined mask as a parameter. -/
def SET_ALIGN_REQ_BYTES (w VCM_ALIGNMENT_MASK attr align : Nat) : Nat :=
  (attr &&& wordNot w VCM_ALIGNMENT_MASK) |||
    (((align <<< 6) % 2 ^ w) &&& VCM_ALIGNMENT_MASK)

/-! ## Association attributes (lines 181-183) -/

/-- Header definition `VCM_SPLIT` (line 181): `(1UL << 3)`. -/
def VCM_SPLIT : Nat := 1 <<< 3
/-- Header definition `VCM_USE_LOW_BASE` (line 182): `(1UL << 2)`. -/
def VCM_USE_LOW_BASE : Nat := 1 <<< 2
/-- Header definition `VCM_USE_HIGH_BASE` (line 183): `(1UL << 1)`. -/
def VCM_USE_HIGH_BASE : Nat := 1 <<< 1

/-! ## Auxiliary notions used to state the properties -/

/-- The alignment field of a reservation attribute word:
`VCM_ALIGN_MASK << VCM_ALIGN_SHIFT`. -/
def alignField : Nat := VCM_ALIGN_MASK <<< VCM_ALIGN_SHIFT

/-- The fields of a reservation attribute word. -/
def resFields : List Nat :=
  [VCM_CACHE_POLICY, VCM_SECURE, VCM_SUPERVISOR, VCM_USER, VCM_EXECUTE,
   VCM_WRITE, VCM_READ, alignField]

/-- The permission and privilege bits of a reservation attribute word. -/
def permBits : List Nat :=
  [VCM_READ, VCM_WRITE, VCM_EXECUTE, VCM_USER, VCM_SUPERVISOR, VCM_SECURE]

/-- The cache policies of a reservation attribute word. -/
def cachePolicies : List Nat := [VCM_NOTCACHED, VCM_WB_WA, VCM_WB_NWA, VCM_WT]

/-- The page-size selection flags of a physical allocation attribute word. -/
def pageSelFlags : List Nat := [VCM_4KB, VCM_64KB, VCM_1MB, VCM_ALL]

/-- Bitwise OR of a collection of flags, the way callers combine them. -/
def orBits (F : List Nat) : Nat := F.foldr (fun b acc => b ||| acc) 0

/-- Decode the alignment order of a reservation attribute word:
`(c >> VCM_ALIGN_SHIFT) & VCM_ALIGN_MASK`. -/
def alignOrder (c : Nat) : Nat := (c >>> VCM_ALIGN_SHIFT) &&& VCM_ALIGN_MASK

/-- The named reservation alignment constants, each with the size in bytes
that its name announces. -/
def namedAlignments : List (Nat × Nat) :=
  [(VCM_ALIGN_4K, 4 * 1024), (VCM_ALIGN_8K, 8 * 1024), (VCM_ALIGN_16K, 16 * 1024),
   (VCM_ALIGN_32K, 32 * 1024), (VCM_ALIGN_64K, 64 * 1024),
   (VCM_ALIGN_128K, 128 * 1024), (VCM_ALIGN_256K, 256 * 1024),
   (VCM_ALIGN_512K, 512 * 1024), (VCM_ALIGN_1M, 1024 * 1024),
   (VCM_ALIGN_2M, 2 * 1024 * 1024), (VCM_ALIGN_4M, 4 * 1024 * 1024),
   (VCM_ALIGN_8M, 8 * 1024 * 1024), (VCM_ALIGN_16M, 16 * 1024 * 1024),
   (VCM_ALIGN_32M, 32 * 1024 * 1024), (VCM_ALIGN_64M, 64 * 1024 * 1024),
   (VCM_ALIGN_128M, 128 * 1024 * 1024), (VCM_ALIGN_256M, 256 * 1024 * 1024),
   (VCM_ALIGN_512M, 512 * 1024 * 1024), (VCM_ALIGN_1GB, 1024 * 1024 * 1024)]

/-- The reservation attribute word `p | F | VCM_ALIGN_ATTR(o)` built from a
cache policy, a collection of permission bits and an alignment order. -/
def packRes (p : Nat) (F : List Nat) (o : Nat) : Nat :=
  p ||| orBits F ||| VCM_ALIGN_ATTR o

/-! ## Association address routing -/

/-- Modelled from the spec: the address-routing rule of an association is not
in the header, which only declares the attribute bits `VCM_SPLIT`,
`VCM_USE_LOW_BASE` and `VCM_USE_HIGH_BASE` and describes the split in a
comment.  `topBitsZero S a` says that the high `S` bits (bits 31, 30, ...,
32 - S) of the 32-bit address `a` are all zero. -/
def topBitsZero (S a : Nat) : Bool :=
  (List.range S).all (fun i => !a.testBit (31 - i))

/-- Modelled from the spec: the address routes to the low base if its high `S`
bits are all zero, otherwise to the high base. -/
def routeBase (S a : Nat) : Nat :=
  if topBitsZero S a then VCM_USE_LOW_BASE else VCM_USE_HIGH_BASE

/-! ## Helper lemmas -/

theorem align_mask_eq_mod (order : Nat) : order &&& VCM_ALIGN_MASK = order % 32 := by
  have h : VCM_ALIGN_MASK = 2 ^ 5 - 1 := by decide
  rw [h, Nat.and_pow_two_sub_one_eq_mod]

theorem align_attr_eq (order : Nat) : VCM_ALIGN_ATTR order = (order % 32) <<< 10 := by
  unfold VCM_ALIGN_ATTR
  rw [align_mask_eq_mod]
  rfl

theorem align_attr_in_field_lt :
    ∀ o, o < 32 → (o <<< 10) &&& alignField = o <<< 10 := by
  decide

theorem align_attr_in_field (order : Nat) :
    VCM_ALIGN_ATTR order &&& alignField = VCM_ALIGN_ATTR order := by
  rw [align_attr_eq]
  exact align_attr_in_field_lt _ (Nat.mod_lt _ (by decide))

theorem nat_or_eq_zero_iff (x y : Nat) : x ||| y = 0 ↔ x = 0 ∧ y = 0 := by
  constructor
  · intro h
    have hb : ∀ i, (x.testBit i || y.testBit i) = false := by
      intro i
      rw [← Nat.testBit_or, h, Nat.zero_testBit]
    constructor
    · apply Nat.eq_of_testBit_eq
      intro i
      have := hb i
      rw [Nat.zero_testBit]
      cases hx : x.testBit i <;> simp_all
    · apply Nat.eq_of_testBit_eq
      intro i
      have := hb i
      rw [Nat.zero_testBit]
      cases hy : y.testBit i <;> simp_all
  · rintro ⟨rfl, rfl⟩
    rfl

theorem nat_shiftRight_or (x y n : Nat) : (x ||| y) >>> n = x >>> n ||| y >>> n := by
  apply Nat.eq_of_testBit_eq
  intro i
  simp only [Nat.testBit_shiftRight, Nat.testBit_or]

theorem nat_shiftRight_of_lt (x n : Nat) (h : x < 2 ^ n) : x >>> n = 0 := by
  rw [Nat.shiftRight_eq_div_pow]
  exact Nat.div_eq_of_lt h

/-- Two masks without a common bit: a word inside the first has no bit of the
second. -/
theorem and_eq_zero_of_disjoint (x m k : Nat) (hx : x &&& m = x) (hmk : m &&& k = 0) :
    x &&& k = 0 := by
  rw [← hx, Nat.and_assoc, hmk, Nat.and_zero]

theorem orBits_cons (a : Nat) (F : List Nat) : orBits (a :: F) = a ||| orBits F := rfl

theorem orBits_and_mask (m : Nat) (F : List Nat) (h : ∀ b ∈ F, b &&& m = b) :
    orBits F &&& m = orBits F := by
  induction F with
  | nil => exact Nat.zero_and m
  | cons a F ih =>
    rw [orBits_cons, Nat.and_distrib_right, h a (List.mem_cons_self a F),
      ih (fun b hb => h b (List.mem_cons_of_mem a hb))]

theorem orBits_and_bit (b : Nat) (hb0 : b ≠ 0) (F : List Nat)
    (h : ∀ a ∈ F, a &&& b = if a = b then b else 0) :
    orBits F &&& b ≠ 0 ↔ b ∈ F := by
  induction F with
  | nil => simp [orBits]
  | cons a F ih =>
    have iha := ih (fun c hc => h c (List.mem_cons_of_mem a hc))
    have ha := h a (List.mem_cons_self a F)
    rw [orBits_cons, Nat.and_distrib_right, ha, List.mem_cons, Ne, nat_or_eq_zero_iff]
    by_cases hab : a = b
    · simp [hab, hb0]
    · have hba : ¬ b = a := fun e => hab e.symm
      simp only [hab, hba, if_false, true_and, false_or]
      exact iha

theorem permBits_and :
    ∀ a ∈ permBits, ∀ b ∈ permBits, a &&& b = if a = b then b else 0 := by
  decide

theorem permBits_facts :
    ∀ b ∈ permBits, b ≠ 0 ∧ b &&& 0x3F0 = b ∧ alignField &&& b = 0 := by
  decide

theorem cachePolicies_facts :
    ∀ p ∈ cachePolicies, p &&& VCM_CACHE_POLICY = p ∧ p < 2 ^ 10 ∧
      ∀ b ∈ permBits, p &&& b = 0 := by
  decide

theorem align_shift_no_overflow (w align : Nat) (h : align + 12 < w) :
    align <<< 6 < 2 ^ w := by
  rw [Nat.shiftLeft_eq]
  have h1 : align < 2 ^ align := Nat.lt_two_pow align
  have h2 : align * 2 ^ 6 < 2 ^ align * 2 ^ 6 :=
    Nat.mul_lt_mul_of_pos_right h1 (by decide)
  have h3 : 2 ^ align * 2 ^ 6 = 2 ^ (align + 6) := (Nat.pow_add 2 align 6).symm
  have h4 : 2 ^ (align + 6) ≤ 2 ^ w := Nat.pow_le_pow_right (by decide) (by omega)
  omega

theorem align_req_bytes_eq (w mask attr : Nat) (h : ((attr &&& mask) >>> 6) + 12 < w) :
    ALIGN_REQ_BYTES w mask attr = 2 ^ (((attr &&& mask) >>> 6) + 12) := by
  unfold ALIGN_REQ_BYTES
  rw [Nat.one_shiftLeft]
  exact Nat.mod_eq_of_lt (Nat.pow_lt_pow_right (by decide) h)

theorem wordNot_testBit (w x i : Nat) :
    (wordNot w x).testBit i = (decide (i < w) && !x.testBit i) := by
  unfold wordNot
  rw [Nat.testBit_xor, Nat.testBit_two_pow_sub_one, Nat.testBit_mod_two_pow]
  cases decide (i < w) <;> cases x.testBit i <;> rfl

theorem set_align_and_mask (w mask attr align : Nat) :
    SET_ALIGN_REQ_BYTES w mask attr align &&& mask = ((align <<< 6) % 2 ^ w) &&& mask := by
  apply Nat.eq_of_testBit_eq
  intro i
  unfold SET_ALIGN_REQ_BYTES
  simp only [Nat.testBit_and, Nat.testBit_or, wordNot_testBit]
  cases attr.testBit i <;> cases decide (i < w) <;> cases mask.testBit i <;> simp

theorem topBitsZero_iff (S a : Nat) (ha : a < 2 ^ 32) (hS : S ≤ 32) :
    topBitsZero S a = true ↔ a < 2 ^ (32 - S) := by
  unfold topBitsZero
  rw [List.all_eq_true]
  constructor
  · intro h
    apply Nat.lt_pow_two_of_testBit
    intro j hj
    by_cases hj32 : 32 ≤ j
    · exact Nat.testBit_lt_two_pow
        (Nat.lt_of_lt_of_le ha (Nat.pow_le_pow_right (by decide) hj32))
    · have hmem : 31 - j ∈ List.range S := List.mem_range.mpr (by omega)
      have hz := h (31 - j) hmem
      have e : 31 - (31 - j) = j := by omega
      rw [e] at hz
      simpa using hz
  · intro h i hi
    have hiS : i < S := List.mem_range.mp hi
    have hlt : a < 2 ^ (31 - i) :=
      Nat.lt_of_lt_of_le h (Nat.pow_le_pow_right (by decide) (by omega))
    simp [Nat.testBit_lt_two_pow hlt]

theorem pageSel_disjoint_high (y : Nat) (hy : ∀ i, i < 6 → y.testBit i = false) :
    VCM_PAGE_SEL_MASK &&& y = 0 := by
  apply Nat.eq_of_testBit_eq
  intro i
  rw [Nat.testBit_and, Nat.zero_testBit]
  by_cases hi : i < 6
  · rw [hy i hi, Bool.and_false]
  · have hm : VCM_PAGE_SEL_MASK.testBit i = false :=
      Nat.testBit_lt_two_pow
        (Nat.lt_of_lt_of_le (by decide : VCM_PAGE_SEL_MASK < 2 ^ 6)
          (Nat.pow_le_pow_right (by decide) (by omega)))
    rw [hm, Bool.false_and]

theorem shift6_low_bits (align i : Nat) (hi : i < 6) : (align <<< 6).testBit i = false := by
  rw [Nat.testBit_shiftLeft]
  simp
  omega

theorem pageSelFlags_facts :
    ∀ b ∈ pageSelFlags, b &&& VCM_PAGE_SEL_MASK = b := by
  decide

theorem contCoh_facts :
    ∀ c ∈ [VCM_PHYS_CONT, VCM_COHERENT], c &&& 3 = c := by
  decide

/-! ## Properties -/

/-- C1: the fields of the reservation attribute word (cache-policy mask, the
six single bits, the alignment field) are pairwise disjoint, and for every
order `VCM_ALIGN_ATTR order` has no bit outside the alignment field. -/
theorem C1_reservation_fields_disjoint :
    resFields = [0xF, 1 <<< 4, 1 <<< 5, 1 <<< 6, 1 <<< 7, 1 <<< 8, 1 <<< 9, 0x1F <<< 10] ∧
    List.Pairwise (fun a b => a &&& b = 0) resFields ∧
    (∀ order : Nat, VCM_ALIGN_ATTR order &&& alignField = VCM_ALIGN_ATTR order) ∧
    (∀ order i : Nat, (VCM_ALIGN_ATTR order).testBit i = true → alignField.testBit i = true) := by
  refine ⟨by decide, by decide, align_attr_in_field, ?_⟩
  intro order i hi
  rw [← align_attr_in_field order, Nat.testBit_and] at hi
  simp only [Bool.and_eq_true] at hi
  exact hi.2

/-- C2: packing then unpacking a reservation attribute word is the identity:
for a cache policy `p`, a collection `F` of permission/privilege bits and an
order `o` in 0..31, the word `p | F | VCM_ALIGN_ATTR(o)` decodes to the order
`o`, to the cache policy `p`, and has a permission bit set exactly when that
bit is in `F`. -/
theorem C2_pack_unpack_roundtrip (p : Nat) (F : List Nat) (o : Nat)
    (hp : p ∈ cachePolicies) (hF : ∀ b ∈ F, b ∈ permBits) (ho : o ≤ 31) :
    (packRes p F o >>> VCM_ALIGN_SHIFT) &&& VCM_ALIGN_MASK = o ∧
    packRes p F o &&& VCM_CACHE_POLICY = p ∧
    ∀ b ∈ permBits, (packRes p F o &&& b ≠ 0 ↔ b ∈ F) := by
  obtain ⟨hpc, hplt, hpb⟩ := cachePolicies_facts p hp
  have hf : orBits F &&& 0x3F0 = orBits F :=
    orBits_and_mask _ F (fun b hb => (permBits_facts b (hF b hb)).2.1)
  have ha : VCM_ALIGN_ATTR o &&& alignField = VCM_ALIGN_ATTR o := align_attr_in_field o
  have hom : o % 32 = o := Nat.mod_eq_of_lt (by omega)
  refine ⟨?_, ?_, ?_⟩
  · have hflt : orBits F < 2 ^ 10 := by
      have : orBits F ≤ 0x3F0 := by
        rw [← hf]; exact Nat.and_le_right
      omega
    have hlow : (p ||| orBits F) >>> 10 = 0 :=
      nat_shiftRight_of_lt _ _ (Nat.or_lt_two_pow hplt hflt)
    show ((p ||| orBits F ||| VCM_ALIGN_ATTR o) >>> 10) &&& VCM_ALIGN_MASK = o
    rw [nat_shiftRight_or, hlow, Nat.zero_or, align_attr_eq, Nat.shiftLeft_shiftRight,
      align_mask_eq_mod, Nat.mod_mod, hom]
  · have h1 : orBits F &&& VCM_CACHE_POLICY = 0 :=
      and_eq_zero_of_disjoint _ 0x3F0 _ hf (by decide)
    have h2 : VCM_ALIGN_ATTR o &&& VCM_CACHE_POLICY = 0 :=
      and_eq_zero_of_disjoint _ alignField _ ha (by decide)
    unfold packRes
    rw [Nat.and_distrib_right, Nat.and_distrib_right, hpc, h1, h2, Nat.or_zero, Nat.or_zero]
  · intro b hb
    obtain ⟨hb0, _, hab⟩ := permBits_facts b hb
    have h2 : VCM_ALIGN_ATTR o &&& b = 0 :=
      and_eq_zero_of_disjoint _ alignField _ ha hab
    unfold packRes
    rw [Nat.and_distrib_right, Nat.and_distrib_right, hpb b hb, h2, Nat.or_zero, Nat.zero_or]
    exact orBits_and_bit b hb0 F (fun a haF => permBits_and a (hF a haF) b hb)

/-- C2 (witness): write-back/write-allocate, readable and writable, 64 KiB
alignment. -/
theorem C2_pack_unpack_roundtrip_witness :
    VCM_WB_WA ∈ cachePolicies ∧ (∀ b ∈ [VCM_READ, VCM_WRITE], b ∈ permBits) ∧ (16 : Nat) ≤ 31 ∧
    ((packRes VCM_WB_WA [VCM_READ, VCM_WRITE] 16 >>> VCM_ALIGN_SHIFT) &&& VCM_ALIGN_MASK = 16 ∧
    packRes VCM_WB_WA [VCM_READ, VCM_WRITE] 16 &&& VCM_CACHE_POLICY = VCM_WB_WA ∧
    ∀ b ∈ permBits,
      (packRes VCM_WB_WA [VCM_READ, VCM_WRITE] 16 &&& b ≠ 0 ↔ b ∈ [VCM_READ, VCM_WRITE])) :=
  ⟨by decide, by decide, by decide,
    C2_pack_unpack_roundtrip VCM_WB_WA [VCM_READ, VCM_WRITE] 16
      (by decide) (by decide) (by decide)⟩

/-- C3 (as stated, refuted): the order 32 exceeds the largest order of the
5-bit field, yet `VCM_ALIGN_ATTR 32` is an attribute word, and it is the very
word that encodes the order 0. -/
theorem C3_order_32_aliases_order_0 :
    (32 : Nat) ≥ 32 ∧ (0 : Nat) ≤ 31 ∧ VCM_ALIGN_ATTR 32 = VCM_ALIGN_ATTR 0 ∧
    ¬ (∀ order : Nat, 32 ≤ order → ∀ o : Nat, o ≤ 31 →
        VCM_ALIGN_ATTR order ≠ VCM_ALIGN_ATTR o) := by
  refine ⟨by decide, by decide, by decide, ?_⟩
  intro h
  exact h 32 (by decide) 0 (by decide) (by decide)

/-- C3 (amended): `VCM_ALIGN_ATTR` is total and never signals an error; for
every order, also one of 32 or more, it yields the attribute word of the order
reduced modulo 32, which is the encoding of an order in 0..31 and decodes to
that reduced order. -/
theorem C3_align_attr_wraps (order : Nat) :
    VCM_ALIGN_ATTR order = (order % 32) <<< VCM_ALIGN_SHIFT ∧
    VCM_ALIGN_ATTR order = VCM_ALIGN_ATTR (order % 32) ∧
    order % 32 ≤ 31 ∧
    alignOrder (VCM_ALIGN_ATTR order) = order % 32 := by
  have hlt : order % 32 < 32 := Nat.mod_lt _ (by decide)
  refine ⟨align_attr_eq order, ?_, by omega, ?_⟩
  · rw [align_attr_eq, align_attr_eq, Nat.mod_mod]
  · unfold alignOrder
    rw [align_attr_eq, align_mask_eq_mod]
    show ((order % 32) <<< 10 >>> 10) % 32 = order % 32
    rw [Nat.shiftLeft_shiftRight, Nat.mod_mod]

/-- C4: whenever the shift count `f + 12`, with `f = (attr & mask) >> 6`, is
smaller than the width of `unsigned long`, `ALIGN_REQ_BYTES(attr)` equals
`2 ^ (f + 12)`: a power of two that is at least the 4 KiB granule
`1 << SHIFT_4KB`. -/
theorem C4_align_req_bytes_pow2 (w mask attr : Nat)
    (h : ((attr &&& mask) >>> 6) + 12 < w) :
    ALIGN_REQ_BYTES w mask attr = 2 ^ (((attr &&& mask) >>> 6) + 12) ∧
    (∃ k, ALIGN_REQ_BYTES w mask attr = 2 ^ k) ∧
    1 <<< SHIFT_4KB ≤ ALIGN_REQ_BYTES w mask attr ∧
    4096 ≤ ALIGN_REQ_BYTES w mask attr := by
  have e := align_req_bytes_eq w mask attr h
  have hge : 2 ^ 12 ≤ 2 ^ (((attr &&& mask) >>> 6) + 12) :=
    Nat.pow_le_pow_right (by decide) (by omega)
  refine ⟨e, ⟨_, e⟩, ?_, ?_⟩
  · rw [e]; exact hge
  · rw [e]; exact hge

/-- C4 (witness): a 32-bit word, the 5-bit field at bit 6, field value 4. -/
theorem C4_align_req_bytes_pow2_witness :
    ((0x100 &&& 0x7C0) >>> 6) + 12 < 32 ∧
    ALIGN_REQ_BYTES 32 0x7C0 0x100 = 2 ^ (((0x100 &&& 0x7C0) >>> 6) + 12) ∧
    (∃ k, ALIGN_REQ_BYTES 32 0x7C0 0x100 = 2 ^ k) ∧
    1 <<< SHIFT_4KB ≤ ALIGN_REQ_BYTES 32 0x7C0 0x100 ∧
    4096 ≤ ALIGN_REQ_BYTES 32 0x7C0 0x100 :=
  ⟨by decide, C4_align_req_bytes_pow2 32 0x7C0 0x100 (by decide)⟩

/-- C5: each of the 19 named reservation alignment constants decodes to the
base-2 logarithm of the size in its name (4K to 12, ..., 1GB to 30), so each
named size is a power of two of at least 4 KiB; the constants are pairwise
distinct and none equals `VCM_ALIGN_DEFAULT`. -/
theorem C5_named_alignments :
    namedAlignments.length = 19 ∧
    (∀ e ∈ namedAlignments,
        2 ^ alignOrder e.1 = e.2 ∧ 4096 ≤ e.2 ∧ e.1 ≠ VCM_ALIGN_DEFAULT) ∧
    namedAlignments.map (fun e => alignOrder e.1) =
      [12, 13, 14, 15, 16, 17, 18, 19, 20, 21, 22, 23, 24, 25, 26, 27, 28, 29, 30] ∧
    (namedAlignments.map Prod.fst).Nodup ∧
    VCM_ALIGN_DEFAULT = 0 := by
  refine ⟨by decide, by decide, by decide, by decide, by decide⟩

/-- C6 (as stated, refuted): with the 5-bit field at bit 6 holding the value
1, `ALIGN_REQ_BYTES` is 8192 and not `4096 * 2 ^ (1 - 1) = 4096`; the value 2
gives 16384 and not 8192, and it is the value 0 that gives 4096. -/
theorem C6_field_one_gives_8K :
    (0x40 &&& 0x7C0) >>> 6 = 1 ∧
    ALIGN_REQ_BYTES 32 0x7C0 0x40 = 8192 ∧
    ALIGN_REQ_BYTES 32 0x7C0 0x40 ≠ 4096 * 2 ^ (1 - 1) ∧
    (0x80 &&& 0x7C0) >>> 6 = 2 ∧
    ALIGN_REQ_BYTES 32 0x7C0 0x80 = 16384 ∧
    ALIGN_REQ_BYTES 32 0x7C0 0x80 ≠ 4096 * 2 ^ (2 - 1) ∧
    ALIGN_REQ_BYTES 32 0x7C0 0 = 4096 ∧
    ALIGN_REQ_BYTES 64 0x7C0 0x40 = 8192 := by
  decide

/-- C6 (amended): the alignment field of the physical allocation attribute
counts powers of two starting at 4 KB with the value 0 meaning 4 KB: for every
attribute word whose field `(attr & VCM_ALIGNMENT_MASK) >> 6` equals `n`, with
`n + 12` below the word width, `ALIGN_REQ_BYTES(attr)` is `4096 * 2 ^ n`; in
particular the field value 0 gives 4096, 1 gives 8192 and 2 gives 16384. -/
theorem C6_align_field_zero_based (w mask attr n : Nat)
    (hn : (attr &&& mask) >>> 6 = n) (hw : n + 12 < w) :
    ALIGN_REQ_BYTES w mask attr = 4096 * 2 ^ n ∧
    ALIGN_REQ_BYTES w mask attr = (1 <<< SHIFT_4KB) * 2 ^ n ∧
    (n = 0 → ALIGN_REQ_BYTES w mask attr = 4096) ∧
    (n = 1 → ALIGN_REQ_BYTES w mask attr = 8192) ∧
    (n = 2 → ALIGN_REQ_BYTES w mask attr = 16384) := by
  have e : ALIGN_REQ_BYTES w mask attr = 4096 * 2 ^ n := by
    rw [align_req_bytes_eq w mask attr (by rw [hn]; exact hw), hn, Nat.pow_add,
      Nat.mul_comm]
  refine ⟨e, e, ?_, ?_, ?_⟩
  · intro h; rw [e, h]; rfl
  · intro h; rw [e, h]; rfl
  · intro h; rw [e, h]; rfl

/-- C6 (witness): a 32-bit word, the 5-bit field at bit 6, field value 1 next
to page-size and contiguity bits. -/
theorem C6_align_field_zero_based_witness :
    (0x62 &&& 0x7C0) >>> 6 = 1 ∧ 1 + 12 < 32 ∧
    (ALIGN_REQ_BYTES 32 0x7C0 0x62 = 4096 * 2 ^ 1 ∧
    ALIGN_REQ_BYTES 32 0x7C0 0x62 = (1 <<< SHIFT_4KB) * 2 ^ 1 ∧
    ((1 : Nat) = 0 → ALIGN_REQ_BYTES 32 0x7C0 0x62 = 4096) ∧
    ((1 : Nat) = 1 → ALIGN_REQ_BYTES 32 0x7C0 0x62 = 8192) ∧
    ((1 : Nat) = 2 → ALIGN_REQ_BYTES 32 0x7C0 0x62 = 16384)) :=
  ⟨by decide, by decide, C6_align_field_zero_based 32 0x7C0 0x62 1 (by decide) (by decide)⟩

/-- C7: setting then reading the physical alignment field round-trips with 0
meaning 4 KB: if `align << 6` fits the mask and `align + 12` is below the word
width, then `ALIGN_REQ_BYTES(SET_ALIGN_REQ_BYTES(attr, align))` is
`2 ^ (align + 12)` whatever `attr` held before (4096 for `align = 0`), and
every bit of `attr` outside the mask is unchanged. -/
theorem C7_set_then_get_align (w mask attr align : Nat)
    (hattr : attr < 2 ^ w)
    (hfit : ((align <<< 6) % 2 ^ w) &&& mask = (align <<< 6) % 2 ^ w)
    (hw : align + 12 < w) :
    ALIGN_REQ_BYTES w mask (SET_ALIGN_REQ_BYTES w mask attr align) = 2 ^ (align + 12) ∧
    (align = 0 → ALIGN_REQ_BYTES w mask (SET_ALIGN_REQ_BYTES w mask attr align) = 4096) ∧
    (∀ i, mask.testBit i = false →
      (SET_ALIGN_REQ_BYTES w mask attr align).testBit i = attr.testBit i) ∧
    SET_ALIGN_REQ_BYTES w mask attr align &&& wordNot w mask = attr &&& wordNot w mask := by
  have hno : (align <<< 6) % 2 ^ w = align <<< 6 :=
    Nat.mod_eq_of_lt (align_shift_no_overflow w align hw)
  have hfield : (SET_ALIGN_REQ_BYTES w mask attr align &&& mask) >>> 6 = align := by
    rw [set_align_and_mask, hfit, hno, Nat.shiftLeft_shiftRight]
  have hget : ALIGN_REQ_BYTES w mask (SET_ALIGN_REQ_BYTES w mask attr align)
      = 2 ^ (align + 12) := by
    rw [align_req_bytes_eq _ _ _ (by rw [hfield]; exact hw), hfield]
  have hbits : ∀ i, mask.testBit i = false →
      (SET_ALIGN_REQ_BYTES w mask attr align).testBit i = attr.testBit i := by
    intro i hi
    unfold SET_ALIGN_REQ_BYTES
    simp only [Nat.testBit_and, Nat.testBit_or, wordNot_testBit, hi]
    by_cases hiw : i < w
    · simp [hiw]
    · have : attr.testBit i = false :=
        Nat.testBit_lt_two_pow
          (Nat.lt_of_lt_of_le hattr (Nat.pow_le_pow_right (by decide) (by omega)))
      simp [this]
  refine ⟨hget, ?_, hbits, ?_⟩
  · intro h0
    rw [hget, h0]
    rfl
  · apply Nat.eq_of_testBit_eq
    intro i
    rw [Nat.testBit_and, Nat.testBit_and]
    cases hm : mask.testBit i
    · rw [hbits i hm]
    · simp [wordNot_testBit, hm]

/-- C7 (witness): a 32-bit word with the page-size and contiguity bits set and
an old field value of 31, overwritten with the order 4. -/
theorem C7_set_then_get_align_witness :
    (0x7FA : Nat) < 2 ^ 32 ∧
    ((4 <<< 6) % 2 ^ 32) &&& 0x7C0 = (4 <<< 6) % 2 ^ 32 ∧
    4 + 12 < 32 ∧
    ALIGN_REQ_BYTES 32 0x7C0 (SET_ALIGN_REQ_BYTES 32 0x7C0 0x7FA 4) = 2 ^ (4 + 12) ∧
    ((4 : Nat) = 0 →
      ALIGN_REQ_BYTES 32 0x7C0 (SET_ALIGN_REQ_BYTES 32 0x7C0 0x7FA 4) = 4096) ∧
    (∀ i, (0x7C0 : Nat).testBit i = false →
      (SET_ALIGN_REQ_BYTES 32 0x7C0 0x7FA 4).testBit i = (0x7FA : Nat).testBit i) ∧
    SET_ALIGN_REQ_BYTES 32 0x7C0 0x7FA 4 &&& wordNot 32 0x7C0 = 0x7FA &&& wordNot 32 0x7C0 :=
  ⟨by decide, by decide, by decide,
    C7_set_then_get_align 32 0x7C0 0x7FA 4 (by decide) (by decide) (by decide)⟩

/-- C8: for a 32-bit address `a` and a split value `S` in 0..31, the address
routes to the low base exactly when its top `S` bits are all zero, that is
when `a < 2 ^ (32 - S)`, and to the high base otherwise; `S = 0` routes every
address low; with `S = 4`, `0x0FFFFFFF` routes low and `0x10000000` routes
high. -/
theorem C8_split_routing (a S : Nat) (ha : a < 2 ^ 32) (hS : S ≤ 31) :
    (routeBase S a = VCM_USE_LOW_BASE ↔ a < 2 ^ (32 - S)) ∧
    (routeBase S a = VCM_USE_HIGH_BASE ↔ ¬ a < 2 ^ (32 - S)) ∧
    (routeBase S a = VCM_USE_LOW_BASE ∨ routeBase S a = VCM_USE_HIGH_BASE) ∧
    routeBase 0 a = VCM_USE_LOW_BASE ∧
    routeBase 4 0x0FFFFFFF = VCM_USE_LOW_BASE ∧
    routeBase 4 0x10000000 = VCM_USE_HIGH_BASE := by
  have hne : VCM_USE_HIGH_BASE ≠ VCM_USE_LOW_BASE := by decide
  have hiff := topBitsZero_iff S a ha (by omega)
  have h0 : routeBase 0 a = VCM_USE_LOW_BASE := by
    have : topBitsZero 0 a = true := (topBitsZero_iff 0 a ha (by decide)).mpr ha
    simp [routeBase, this]
  refine ⟨?_, ?_, ?_, h0, by decide, by decide⟩
  · unfold routeBase
    by_cases ht : topBitsZero S a = true
    · simp [ht, hiff.mp ht]
    · have hn : ¬ a < 2 ^ (32 - S) := fun hlt => ht (hiff.mpr hlt)
      simp [ht, hn, hne]
  · unfold routeBase
    by_cases ht : topBitsZero S a = true
    · simp [ht, hiff.mp ht, hne.symm]
    · have hn : ¬ a < 2 ^ (32 - S) := fun hlt => ht (hiff.mpr hlt)
      simp [ht, hn]
  · unfold routeBase
    by_cases ht : topBitsZero S a = true
    · simp [ht]
    · simp [ht]

/-- C8 (witness): split value 4 and the address `0x0FFFFFFF`. -/
theorem C8_split_routing_witness :
    (0x0FFFFFFF : Nat) < 2 ^ 32 ∧ (4 : Nat) ≤ 31 ∧
    ((routeBase 4 0x0FFFFFFF = VCM_USE_LOW_BASE ↔ 0x0FFFFFFF < 2 ^ (32 - 4)) ∧
    (routeBase 4 0x0FFFFFFF = VCM_USE_HIGH_BASE ↔ ¬ 0x0FFFFFFF < 2 ^ (32 - 4)) ∧
    (routeBase 4 0x0FFFFFFF = VCM_USE_LOW_BASE ∨ routeBase 4 0x0FFFFFFF = VCM_USE_HIGH_BASE) ∧
    routeBase 0 0x0FFFFFFF = VCM_USE_LOW_BASE ∧
    routeBase 4 0x0FFFFFFF = VCM_USE_LOW_BASE ∧
    routeBase 4 0x10000000 = VCM_USE_HIGH_BASE) :=
  ⟨by decide, by decide, C8_split_routing 0x0FFFFFFF 4 (by decide) (by decide)⟩

/-- C9: the four page-size selection flags are pairwise distinct single bits
whose OR is exactly `VCM_PAGE_SEL_MASK`; the mask shares no bit with
`VCM_PHYS_CONT`, with `VCM_COHERENT`, or with any alignment value `align << 6`;
hence for every combination of page-size flags, contiguity and coherency (and
any alignment value), `attr & VCM_PAGE_SEL_MASK` is exactly the chosen
page-size flags. -/
theorem C9_page_sel_mask :
    pageSelFlags.Nodup ∧
    pageSelFlags = [2 ^ 5, 2 ^ 4, 2 ^ 3, 2 ^ 2] ∧
    orBits pageSelFlags = VCM_PAGE_SEL_MASK ∧
    VCM_PAGE_SEL_MASK &&& VCM_PHYS_CONT = 0 ∧
    VCM_PAGE_SEL_MASK &&& VCM_COHERENT = 0 ∧
    (∀ align : Nat, VCM_PAGE_SEL_MASK &&& (align <<< 6) = 0) ∧
    (∀ w align : Nat, VCM_PAGE_SEL_MASK &&& ((align <<< 6) % 2 ^ w) = 0) ∧
    (∀ (P C : List Nat) (align : Nat),
      (∀ b ∈ P, b ∈ pageSelFlags) → (∀ c ∈ C, c ∈ [VCM_PHYS_CONT, VCM_COHERENT]) →
      (orBits P ||| orBits C ||| (align <<< 6)) &&& VCM_PAGE_SEL_MASK = orBits P) := by
  have hal : ∀ align : Nat, VCM_PAGE_SEL_MASK &&& (align <<< 6) = 0 := fun align =>
    pageSel_disjoint_high _ (shift6_low_bits align)
  refine ⟨by decide, by decide, by decide, by decide, by decide, hal, ?_, ?_⟩
  · intro w align
    apply pageSel_disjoint_high
    intro i hi
    rw [Nat.testBit_mod_two_pow, shift6_low_bits align i hi, Bool.and_false]
  · intro P C align hP hC
    have h1 : orBits P &&& VCM_PAGE_SEL_MASK = orBits P :=
      orBits_and_mask _ P (fun b hb => pageSelFlags_facts b (hP b hb))
    have h2 : orBits C &&& 3 = orBits C :=
      orBits_and_mask _ C (fun c hc => contCoh_facts c (hC c hc))
    have h3 : orBits C &&& VCM_PAGE_SEL_MASK = 0 :=
      and_eq_zero_of_disjoint _ 3 _ h2 (by decide)
    have h4 : (align <<< 6) &&& VCM_PAGE_SEL_MASK = 0 := by
      rw [Nat.and_comm]; exact hal align
    rw [Nat.and_distrib_right, Nat.and_distrib_right, h1, h3, h4, Nat.or_zero, Nat.or_zero]
